import Mathlib

/-!
Formal model of the on-demand custom-elements loader (`custom-elements.js`)
and the fluent HTML builder (`fluent-html.js`) of this repository.

The JavaScript source is embedded shallowly:
* strings are Lean `String`s; `String.prototype.toLowerCase` is modelled by
  `jsToLower` (ASCII case folding, which is what the tag-syntax regex can see);
* the browser environment (the document's templates and the dynamic module
  loader) is an explicit `Env` record; the `customElements` registry is a
  field of the combined `LoaderState` because the loader mutates it;
* every loader operation returns an `Outcome`: the state after the operation,
  a trace of observable actions (element checks, resolution attempts, module
  imports, log-sink events), and an optional uncaught exception.  JavaScript
  `throw` is modelled by the exception slot; `try`/`catch`/`finally` in the
  source becomes explicit handling of that slot.
-/

namespace OnDemand

/-- JavaScript error values are abstracted to strings. -/
abbrev JsError := String

/-- ASCII case folding, modelling `String.prototype.toLowerCase` on the
alphabet relevant to the custom-element tag regex. -/
def jsToLower (s : String) : String := ⟨s.data.map Char.toLower⟩

/-- A character admitted by the body of the regex `^[a-z][.0-9_a-z-]*$`
in `isPotentialCustomElementTag`. -/
def isTagBodyChar (c : Char) : Bool :=
  ('a' ≤ c && c ≤ 'z') || ('0' ≤ c && c ≤ '9') || c == '.' || c == '_' || c == '-'

/-- Matching of the regex `^[a-z][.0-9_a-z-]*$` from `isPotentialCustomElementTag`:
a first lowercase ASCII letter followed by body characters. -/
def matchesTagPattern : List Char → Bool
  | [] => false
  | c :: rest => ('a' ≤ c && c ≤ 'z') && rest.all isTagBodyChar

/-- `isPotentialCustomElementTag` from `custom-elements.js`:
lowercase the input, require a hyphen (`t.includes("-")`) and the regex
`^[a-z][.0-9_a-z-]*$` to match. -/
def isPotentialCustomElementTag (tagName : String) : Bool :=
  let t := jsToLower tagName
  t.data.any (fun c => c == '-') && matchesTagPattern t.data

/-- The specification's characterization of a valid custom-element tag:
after case-folding to lowercase, the name contains a hyphen, starts with a
lowercase ASCII letter (invalid leading characters are rejected), and uses
only the valid character set. -/
def specValidCustomElementSyntax (tagName : String) : Prop :=
  let l := (jsToLower tagName).data
  ('-' ∈ l) ∧ (∃ c rest, l = c :: rest ∧ 'a' ≤ c ∧ c ≤ 'z') ∧
    (∀ c ∈ l, isTagBodyChar c = true)

/-- A DOM element as seen by the loader: its tag name (as reported by
`el.tagName`) and its attributes (used only by resolver policies). -/
structure Elem where
  tagName : String
  attrs : List (String × String) := []

/-- A child node of a template's content fragment.  Elements carry their tag
name and their inner markup (`innerHTML`), which is all the loader reads. -/
inductive DomNode where
  | element (tagName : String) (innerHTML : String)
  | textNode (s : String)
  | commentNode (s : String)
deriving DecidableEq

/-- A `<template>` element: the child nodes of its `content` fragment. -/
structure TemplateEl where
  content : List DomNode
deriving DecidableEq

/-- `frag.firstElementChild`: the first child that is an element, with its
tag name and inner markup. -/
def firstElementChild : List DomNode → Option (String × String)
  | [] => none
  | .element t ih :: _ => some (t, ih)
  | .textNode _ :: rest => firstElementChild rest
  | .commentNode _ :: rest => firstElementChild rest

/-- A JavaScript value as far as `isHTMLElementConstructor` can distinguish:
either a function whose prototype is an `HTMLElement`, or anything else. -/
inductive JsValue where
  | htmlElementCtor
  | otherValue
deriving DecidableEq

/-- A loaded module's exports, keyed by export name. -/
abbrev ImportedModule := List (String × JsValue)

/-- `isHTMLElementConstructor` applied to a possibly-missing candidate
(`undefined` is `none`). -/
def isHTMLElementConstructor : Option JsValue → Bool
  | some .htmlElementCtor => true
  | _ => false

/-- The `exportName` field of a resolution: a fixed export name (possibly
`"default"`) or a selector function over the module's exports. -/
inductive ExportName where
  | name (s : String)
  | selector (f : ImportedModule → Option JsValue)

/-- `mod.default` / `mod[exportName]` / `exportName(mod)` from
`importFromUrl`: select the candidate constructor from the module. -/
def selectExport : ExportName → ImportedModule → Option JsValue
  | .name s, mod => mod.lookup s
  | .selector f, mod => f mod

/-- An `OnDemandCustomElementResolution`.  URLs are modelled as strings
(`URL` objects are always truthy non-empty strings here). -/
structure Resolution where
  importFromUrl : Option String := none
  importFromTmpl : Option String := none
  defineAs : Option String := none
  exportName : Option ExportName := none
  waitForDefinition : Bool := false

/-- JavaScript truthiness of an optional string field (`undefined` and the
empty string are falsy). -/
def truthy : Option String → Bool
  | some s => s ≠ ""
  | none => false

/-- The browser environment the loader reads:
* `templates id` is `document.getElementById(id)` when the result is an
  `HTMLTemplateElement` (`none` covers both a missing element and a
  non-template element);
* `importMod href` is the dynamic `import(href)`: an error models a throw
  from URL normalization or the import itself, a success yields the module's
  exports together with the list of tag names the module's top level
  registers itself (`customElements.define`) for. -/
structure Env where
  templates : String → Option TemplateEl
  importMod : String → Except JsError (ImportedModule × List String)

/-- The loader's four state collections plus the (global) `customElements`
registry, which the loader both reads and writes. -/
structure LoaderState where
  pending : List String
  loaded : List String
  failed : List (String × JsError)
  skipped : List String
  registry : List String
deriving DecidableEq

/-- The freshly constructed loader's state over an empty registry. -/
def LoaderState.init : LoaderState := ⟨[], [], [], [], []⟩

/-- `Map.prototype.set`: replace any entry for the key, keep the rest. -/
def mapSet (k : String) (v : JsError) (m : List (String × JsError)) :
    List (String × JsError) :=
  (k, v) :: m.filter (fun p => p.1 ≠ k)

/-- `Map.prototype.delete`. -/
def mapDelete (k : String) (m : List (String × JsError)) :
    List (String × JsError) :=
  m.filter (fun p => p.1 ≠ k)

/-- `Map.prototype.has`. -/
def mapHas (k : String) (m : List (String × JsError)) : Bool :=
  m.any (fun p => p.1 == k)

/-- Observable actions of a loader operation, in execution order:
entry of the per-element check, start and end of a resolution attempt
(the `pending` add and the `finally` clearing it), a dynamic module import,
and an event sent to the injected log sink. -/
inductive Action where
  | check (tag : String)
  | resolveStart (tag : String)
  | resolveEnd (tag : String)
  | importCall (href : String)
  | logged (level : String) (message : String)
deriving DecidableEq

/-- Result of running a loader operation: the state afterwards, the trace of
observable actions, and an uncaught exception when one propagates. -/
structure Outcome where
  st : LoaderState
  trace : List Action
  exn : Option JsError
deriving DecidableEq

/-- `defineFromTemplate` from `custom-elements.js`.  It never throws: every
branch returns after updating the state and possibly logging a warning. -/
def defineFromTemplate (env : Env) (encounteredTag : String) (res : Resolution)
    (st : LoaderState) : Outcome :=
  let tmplId := res.importFromTmpl.getD ""
  match env.templates tmplId with
  | none =>
    ⟨{ st with skipped := st.skipped.insert encounteredTag },
      [.logged "warn" "Template resolution requested but template not found"], none⟩
  | some tmpl =>
    match firstElementChild tmpl.content with
    | none =>
      ⟨{ st with skipped := st.skipped.insert encounteredTag },
        [.logged "warn" "Template is empty or has no element root"], none⟩
    | some root =>
      let inferredTag := jsToLower root.1
      let defineAs := jsToLower (res.defineAs.getD inferredTag)
      if isPotentialCustomElementTag defineAs = false then
        ⟨{ st with skipped := st.skipped.insert encounteredTag },
          [.logged "warn" "Refusing to define from template: invalid custom element tag"], none⟩
      else if defineAs ∈ st.registry then
        ⟨{ st with loaded := st.loaded.insert encounteredTag }, [], none⟩
      else
        ⟨{ st with
            registry := (defineAs :: st.registry),
            loaded := st.loaded.insert encounteredTag }, [], none⟩

/-- `importFromUrl` from `custom-elements.js`.  The `await import(href)` is
the only step that can throw (modelled by `env.importMod` returning an
error); `normalizeToAbsHref` is folded into the `importMod` key.  The
`whenDefined` waits suspend but do not change state. -/
def importFromUrl (env : Env) (encounteredTag : String) (res : Resolution)
    (st : LoaderState) : Outcome :=
  let defineAs := jsToLower (res.defineAs.getD encounteredTag)
  if isPotentialCustomElementTag defineAs = false then
    ⟨{ st with skipped := st.skipped.insert encounteredTag },
      [.logged "warn" "Refusing to load: not a valid custom element tag name"], none⟩
  else if defineAs ∈ st.registry then
    ⟨{ st with loaded := st.loaded.insert encounteredTag }, [], none⟩
  else
    let href := res.importFromUrl.getD ""
    let preTrace : List Action :=
      [.logged "debug" "Importing custom element module", .importCall href]
    match env.importMod href with
    | .error e => ⟨st, preTrace, some e⟩
    | .ok (mod, regs) =>
      let st1 := { st with registry := regs ++ st.registry }
      if defineAs ∈ st1.registry then
        ⟨{ st1 with loaded := st1.loaded.insert encounteredTag }, preTrace, none⟩
      else
        match res.exportName with
        | none =>
          ⟨{ st1 with loaded := st1.loaded.insert encounteredTag },
            preTrace ++ [.logged "warn" "Module imported but element not defined (self-registering expected)"],
            none⟩
        | some en =>
          if isHTMLElementConstructor (selectExport en mod) = false then
            ⟨{ st1 with loaded := st1.loaded.insert encounteredTag },
              preTrace ++ [.logged "warn" "Export is not a valid HTMLElement subclass constructor; cannot define"],
              none⟩
          else
            ⟨{ st1 with
                registry := (defineAs :: st1.registry),
                loaded := st1.loaded.insert encounteredTag }, preTrace, none⟩

/-- The body of the `try` block of `applyResolution`: dispatch on the
resolution kind.  The optional `whenDefined` wait of the template branch has
no state effect. -/
def applyResolutionBody (env : Env) (encounteredTag : String) (res : Resolution)
    (st : LoaderState) : Outcome :=
  if truthy res.importFromTmpl then
    defineFromTemplate env encounteredTag res st
  else if truthy res.importFromUrl then
    importFromUrl env encounteredTag res st
  else
    ⟨{ st with skipped := st.skipped.insert encounteredTag },
      [.logged "warn" "Resolver returned a resolution with neither importFromUrl nor importFromTmpl"],
      none⟩

/-- `applyResolution` from `custom-elements.js`: the dedup guard on
`pending`, the `failed.delete`, the `try` body, the `catch` recording the
error in `failed`, and the `finally` clearing `pending`. -/
def applyResolution (env : Env) (encounteredTag : String) (res : Resolution)
    (st : LoaderState) : Outcome :=
  if encounteredTag ∈ st.pending then ⟨st, [], none⟩
  else
    let st1 := { st with
                  pending := st.pending.insert encounteredTag,
                  failed := mapDelete encounteredTag st.failed }
    let body := applyResolutionBody env encounteredTag res st1
    match body.exn with
    | some e =>
      ⟨{ body.st with
          failed := (mapSet encounteredTag e body.st.failed),
          pending := body.st.pending.erase encounteredTag },
        .resolveStart encounteredTag ::
          (body.trace ++ [.logged "error" "Failed to resolve/import/define custom element",
            .resolveEnd encounteredTag]),
        none⟩
    | none =>
      ⟨{ body.st with pending := body.st.pending.erase encounteredTag },
        .resolveStart encounteredTag :: (body.trace ++ [.resolveEnd encounteredTag]),
        none⟩

/-- A resolver as the loader sees it: `.error` models a throw, `.ok none`
models returning `false`, `.ok (some res)` a resolution. -/
abbrev ResolverFn := String → Elem → Except JsError (Option Resolution)

/-- `maybeLoadForElement` from `custom-elements.js`: lowercase the tag,
apply the potential-tag / registry / already-classified guards, invoke the
resolver (catching a throw into `failed`), and apply the resolution. -/
def maybeLoadForElement (env : Env) (resolver : ResolverFn) (el : Elem)
    (st : LoaderState) : Outcome :=
  let encounteredTag := jsToLower el.tagName
  if isPotentialCustomElementTag encounteredTag = false then
    ⟨st, [.check encounteredTag], none⟩
  else if encounteredTag ∈ st.registry then
    ⟨st, [.check encounteredTag], none⟩
  else if encounteredTag ∈ st.loaded ∨ mapHas encounteredTag st.failed = true ∨
      encounteredTag ∈ st.skipped then
    ⟨st, [.check encounteredTag], none⟩
  else
    match resolver encounteredTag el with
    | .error e =>
      ⟨{ st with failed := mapSet encounteredTag e st.failed },
        [.check encounteredTag, .logged "error" "Resolver threw; marking as failed"], none⟩
    | .ok none =>
      ⟨{ st with skipped := st.skipped.insert encounteredTag },
        [.check encounteredTag], none⟩
    | .ok (some res) =>
      let r := applyResolution env encounteredTag res st
      ⟨r.st, .check encounteredTag :: r.trace, r.exn⟩

/-- The `for (const el of all) await maybeLoadForElement(el)` loop of
`scan`: sequential, an uncaught exception aborts the loop. -/
def scanList (env : Env) (resolver : ResolverFn) : List Elem → LoaderState → Outcome
  | [], st => ⟨st, [], none⟩
  | el :: rest, st =>
    let r := maybeLoadForElement env resolver el st
    match r.exn with
    | some _ => r
    | none =>
      let r2 := scanList env resolver rest r.st
      ⟨r2.st, r.trace ++ r2.trace, r2.exn⟩

/-- `scan` from `custom-elements.js`: when the root is itself an element it
is checked first; with `deepScan` the descendants returned by
`querySelectorAll("*")` (in document order) are then checked one by one. -/
def scan (env : Env) (resolver : ResolverFn) (rootEl : Option Elem)
    (deepScan : Bool) (descendants : List Elem) (st : LoaderState) : Outcome :=
  match rootEl with
  | some el =>
    let r := maybeLoadForElement env resolver el st
    match r.exn with
    | some _ => r
    | none =>
      if deepScan then
        let r2 := scanList env resolver descendants r.st
        ⟨r2.st, r.trace ++ r2.trace, r2.exn⟩
      else r
  | none =>
    if deepScan then scanList env resolver descendants st
    else ⟨st, [], none⟩

/-- `preload` from `custom-elements.js`: lowercase, guard on tag syntax and
on the registry, then apply the resolution directly (bypassing the
resolver and the loaded/failed/skipped guards). -/
def preload (env : Env) (tagName : String) (res : Resolution)
    (st : LoaderState) : Outcome :=
  let encounteredTag := jsToLower tagName
  if isPotentialCustomElementTag encounteredTag = false then ⟨st, [], none⟩
  else if encounteredTag ∈ st.registry then ⟨st, [], none⟩
  else applyResolution env encounteredTag res st

/-- The loader's public mutating operations, for stating invariants that
hold across every operation. -/
inductive LoaderOp where
  | scanOp (rootEl : Option Elem) (deepScan : Bool) (descendants : List Elem)
  | preloadOp (tagName : String) (res : Resolution)

/-- Run one public loader operation. -/
def runOp (env : Env) (resolver : ResolverFn) : LoaderOp → LoaderState → Outcome
  | .scanOp rootEl deep des, st => scan env resolver rootEl deep des st
  | .preloadOp tagName res, st => preload env tagName res st

/-- `composeOnDemandCustomElementResolvers` from `custom-elements.js`,
specialised to a list: try each resolver in order, await it, return the
first result that is not `false`; a throw propagates. -/
def composeRun : List ResolverFn → String → Elem → Except JsError (Option Resolution)
  | [], _, _ => .ok none
  | r :: rest, tagName, el =>
    match r tagName el with
    | .error e => .error e
    | .ok (some out) => .ok (some out)
    | .ok none => composeRun rest tagName el

/-- The composed resolver returned by
`composeOnDemandCustomElementResolvers(...resolvers)`. -/
def composeOnDemandCustomElementResolvers (resolvers : List ResolverFn) : ResolverFn :=
  fun tagName el => composeRun resolvers tagName el

/-- Actions that are neither the entry of an element check nor the start or
end of a resolution attempt: log events and module imports. -/
def isNeutral : Action → Bool
  | .logged _ _ => true
  | .importCall _ => true
  | _ => false

/-- Number of resolution attempts started for a given tag in a trace. -/
def startCount (t : String) (tr : List Action) : Nat :=
  (tr.filter (fun a => a == Action.resolveStart t)).length

/-- Project the tag out of an element-check action. -/
def checkTag : Action → Option String
  | .check t => some t
  | _ => none

/-- The trace of one element's check, run to completion: the check entry,
then either no resolution attempt (only log events), or exactly one
resolution attempt that starts and ends within the block. -/
inductive CheckBlock : String → List Action → Prop
  | noAttempt (t : String) (pre : List Action)
      (h : ∀ a ∈ pre, isNeutral a = true) :
      CheckBlock t (.check t :: pre)
  | attempt (t : String) (mids : List Action)
      (h : ∀ a ∈ mids, isNeutral a = true) :
      CheckBlock t (.check t :: .resolveStart t :: (mids ++ [.resolveEnd t]))

/-- The invalid-resolution cases enumerated by the specification: neither of
the two import kinds present; template lookup failure or an
element-root-less template; a define-name failing the custom-element syntax
check (on either path); or a selected module export that is not an
`HTMLElement` constructor. -/
def InvalidResolutionCase (env : Env) (tag : String) (res : Resolution)
    (reg : List String) : Prop :=
  (truthy res.importFromTmpl = false ∧ truthy res.importFromUrl = false)
  ∨
  (truthy res.importFromTmpl = true ∧
    (env.templates (res.importFromTmpl.getD "") = none ∨
      ∃ tmpl, env.templates (res.importFromTmpl.getD "") = some tmpl ∧
        firstElementChild tmpl.content = none))
  ∨
  ((truthy res.importFromTmpl = true ∧
     ∃ tmpl root, env.templates (res.importFromTmpl.getD "") = some tmpl ∧
       firstElementChild tmpl.content = some root ∧
       isPotentialCustomElementTag (jsToLower (res.defineAs.getD (jsToLower root.1))) = false) ∨
   (truthy res.importFromTmpl = false ∧ truthy res.importFromUrl = true ∧
     isPotentialCustomElementTag (jsToLower (res.defineAs.getD tag)) = false))
  ∨
  (truthy res.importFromTmpl = false ∧ truthy res.importFromUrl = true ∧
    isPotentialCustomElementTag (jsToLower (res.defineAs.getD tag)) = true ∧
    jsToLower (res.defineAs.getD tag) ∉ reg ∧
    ∃ mod regs en,
      env.importMod (res.importFromUrl.getD "") = .ok (mod, regs) ∧
      jsToLower (res.defineAs.getD tag) ∉ regs ∧
      res.exportName = some en ∧
      isHTMLElementConstructor (selectExport en mod) = false)

/-- An environment with no templates and an offline module loader. -/
def noEnv : Env := { templates := fun _ => none, importMod := fun _ => .error "offline" }

/-- A template whose content has a leading text node and two element roots. -/
def twoRootTemplate : TemplateEl :=
  ⟨[.textNode "lead", .element "MY-CARD" "<b>hi</b>", .element "X-EXTRA" ""]⟩

/-- An environment holding `twoRootTemplate` under the id `tmpl-card`. -/
def twoRootEnv : Env :=
  { templates := fun id => if id = "tmpl-card" then some twoRootTemplate else none,
    importMod := fun _ => .error "offline" }

/-- A resolution with neither `importFromUrl` nor `importFromTmpl`. -/
def resolutionNone : Resolution := {}

/-- A template resolution referencing `tmpl-card`. -/
def resolutionTmpl : Resolution := { importFromTmpl := some "tmpl-card" }

/-- A template resolution referencing a nonexistent template id. -/
def resolutionTmplMissing : Resolution := { importFromTmpl := some "no-such-template" }

/-- A loader state in which tag `x-a` has already failed. -/
def failedState : LoaderState := { LoaderState.init with failed := [("x-a", "boom")] }

/-- An element instance of the demo tag. -/
def elCard : Elem := { tagName := "MY-CARD" }

/-- A loader state over a registry that already defines `my-card`. -/
def registryState : LoaderState := { LoaderState.init with registry := ["my-card"] }

/-- The number of element roots of a template's content fragment. -/
def countElementRoots (tm : TemplateEl) : Nat :=
  (tm.content.filter (fun n => match n with
    | .element _ _ => true
    | _ => false)).length

/-- A resolver that always skips. -/
def skipResolver : ResolverFn := fun _ _ => .ok none

/-- A resolver that always answers with the template resolution. -/
def tmplResolver : ResolverFn := fun _ _ => .ok (some resolutionTmpl)

/-- A second, distinct template resolution. -/
def resolutionTmplB : Resolution := { importFromTmpl := some "tmpl-b" }

/-- A resolver that always answers with `resolutionTmplB`. -/
def tmplResolverB : ResolverFn := fun _ _ => .ok (some resolutionTmplB)

end OnDemand

namespace FluentHtml

/-- An attribute/property value as `applyAttrs` in `fluent-html.js`
distinguishes it: `null`/`undefined`, a boolean, a string, a number, or an
object (style maps, dataset maps, `on` maps and generic objects). -/
inductive AttrV where
  | vNull
  | vBool (b : Bool)
  | vStr (s : String)
  | vNum (n : Int)
  | vObj (pairs : List (String × AttrV))

/-- JavaScript `String(v)` on an attribute value. -/
def jsStringOfAttr : AttrV → String
  | .vNull => "null"
  | .vBool b => if b then "true" else "false"
  | .vStr s => s
  | .vNum n => toString n
  | .vObj _ => "[object Object]"

/-- JavaScript truthiness of an attribute value (used by the `on` map). -/
def truthyAttr : AttrV → Bool
  | .vNull => false
  | .vBool b => b
  | .vStr s => s ≠ ""
  | .vNum n => n ≠ 0
  | .vObj _ => true

/-- Keyed update with `setAttribute`/map-assignment semantics: replace any
existing entry for the key, appending a fresh entry otherwise. -/
def assocSet (k : String) (v : α) (m : List (String × α)) : List (String × α) :=
  m.filter (fun p => p.1 ≠ k) ++ [(k, v)]

/-- The observable result of `applyAttrs` on a freshly created element:
attributes set with `setAttribute`, directly assigned properties, style
properties, dataset entries, and registered event listeners. -/
structure BElemData where
  attrs : List (String × String) := []
  props : List (String × AttrV) := []
  styleProps : List (String × String) := []
  dataset : List (String × String) := []
  listeners : List (String × AttrV) := []

/-- The tail of the `applyAttrs` loop body: prefer direct property
assignment when the property exists on the element and the key has no
hyphen; `true` becomes a presence-only attribute; otherwise
`setAttribute(k, String(v))`. -/
def fallbackAssign (hasProp : String → Bool) (d : BElemData) (k : String)
    (v : AttrV) : BElemData :=
  if hasProp k && !(k.data.any (fun c => c == '-')) then
    { d with props := assocSet k v d.props }
  else
    match v with
    | .vBool true => { d with attrs := assocSet k "" d.attrs }
    | v => { d with attrs := assocSet k (jsStringOfAttr v) d.attrs }

/-- One iteration of the `applyAttrs` loop of `fluent-html.js`:
skip `null`/`false`; handle `style` (string or object), `dataset` (object)
and `on` (object) specially; otherwise fall back to property/attribute
assignment. -/
def applyAttr (hasProp : String → Bool) (d : BElemData) (k : String)
    (v : AttrV) : BElemData :=
  match v with
  | .vNull => d
  | .vBool false => d
  | v =>
    if k = "style" then
      match v with
      | .vStr s => { d with attrs := assocSet "style" s d.attrs }
      | .vObj pairs =>
        { d with
            styleProps := pairs.foldl (fun sp p =>
              match p.2 with
              | .vNull => sp
              | sv => assocSet p.1 (jsStringOfAttr sv) sp) d.styleProps }
      | _ => d
    else if k = "dataset" then
      match v with
      | .vObj pairs =>
        { d with
            dataset := pairs.foldl (fun ds p =>
              match p.2 with
              | .vNull => ds
              | dv => assocSet p.1 (jsStringOfAttr dv) ds) d.dataset }
      | v => fallbackAssign hasProp d k v
    else if k = "on" then
      match v with
      | .vObj pairs =>
        { d with listeners := d.listeners ++ pairs.filter (fun p => truthyAttr p.2) }
      | v => fallbackAssign hasProp d k v
    else fallbackAssign hasProp d k v

/-- `applyAttrs` of `fluent-html.js`: fold the attribute object's entries in
order over a freshly created element. -/
def applyAttrs (hasProp : String → Bool) (attrs : List (String × AttrV)) : BElemData :=
  attrs.foldl (fun d p => applyAttr hasProp d p.1 p.2) {}

/-- A DOM node built by the fluent HTML builder. -/
inductive BNode where
  | element (tagName : String) (svg : Bool) (data : BElemData) (children : List BNode)
  | textNode (s : String)

/-- A `ChildLike` argument of a tag factory: a node, a string, a number, a
boolean, `null`/`undefined`, a nested sequence, or a plain object (which, in
leading position, is the attributes object). -/
inductive ChildLike where
  | node (n : BNode)
  | str (s : String)
  | num (n : Int)
  | bool (b : Bool)
  | nullish
  | arr (cs : List ChildLike)
  | obj (attrs : List (String × AttrV))

mutual

/-- `appendChild` of `fluent-html.js` as the list of nodes one argument
contributes: `null`/`undefined` and booleans are ignored, arrays recurse,
nodes are appended directly, strings and numbers become text nodes, and any
other value is stringified. -/
def flattenChild : ChildLike → List BNode
  | .nullish => []
  | .bool _ => []
  | .arr cs => flattenList cs
  | .node n => [n]
  | .str s => [.textNode s]
  | .num n => [.textNode (toString n)]
  | .obj _ => [.textNode "[object Object]"]

/-- Sequentially append a list of child arguments. -/
def flattenList : List ChildLike → List BNode
  | [] => []
  | c :: rest => flattenChild c ++ flattenList rest

end

/-- The SVG tag-name table of `fluent-html.js`. -/
def svgTags : List String :=
  ["svg", "g", "path", "circle", "rect", "line", "polyline", "polygon",
   "ellipse", "text", "tspan", "defs", "clipPath", "mask", "pattern",
   "linearGradient", "radialGradient", "stop", "symbol", "use", "marker",
   "foreignObject", "view"]

/-- The factory returned by `tag(tagName)` in `fluent-html.js`:
an optional leading plain object is applied as attributes, the rest of the
arguments are flattened into children.  `hasProp tagName k` models the
JavaScript `k in el` test for the created element. -/
def tag (hasProp : String → String → Bool) (tagName : String)
    (args : List ChildLike) : BNode :=
  match args with
  | .obj a :: rest =>
    .element tagName (svgTags.contains tagName) (applyAttrs (hasProp tagName) a)
      (flattenList rest)
  | _ =>
    .element tagName (svgTags.contains tagName) {} (flattenList args)

/-- A partial model of which keys are direct properties of an HTML element
(`k in el`).  In browsers `class` is reflected only through `className`, so
`"class" in el` is false and `class` goes through `setAttribute`. -/
def domHasProp (_tagName k : String) : Bool :=
  k ∈ ["id", "className", "title", "lang", "dir", "hidden", "innerHTML",
       "value", "checked", "disabled"]

end FluentHtml

open OnDemand

/-- `defineFromTemplate` never throws. -/
theorem defineFromTemplate_exn (env : Env) (t : String) (res : Resolution)
    (st : LoaderState) : (defineFromTemplate env t res st).exn = none := by
  simp only [defineFromTemplate]
  repeat' split
  all_goals rfl

/-- Every action in a `defineFromTemplate` trace is a log event. -/
theorem defineFromTemplate_trace_neutral (env : Env) (t : String) (res : Resolution)
    (st : LoaderState) :
    ∀ a ∈ (defineFromTemplate env t res st).trace, isNeutral a = true := by
  intro a ha
  simp only [defineFromTemplate] at ha
  repeat' split at ha
  all_goals fin_cases ha
  all_goals rfl

/-- Every action in an `importFromUrl` trace is a log event or an import. -/
theorem importFromUrl_trace_neutral (env : Env) (t : String) (res : Resolution)
    (st : LoaderState) :
    ∀ a ∈ (importFromUrl env t res st).trace, isNeutral a = true := by
  intro a ha
  simp only [importFromUrl] at ha
  repeat' split at ha
  all_goals fin_cases ha
  all_goals rfl

/-- Every action in the `try`-body trace of `applyResolution` is a log
event or an import: resolution attempts never nest. -/
theorem applyResolutionBody_trace_neutral (env : Env) (t : String) (res : Resolution)
    (st : LoaderState) :
    ∀ a ∈ (applyResolutionBody env t res st).trace, isNeutral a = true := by
  intro a ha
  simp only [applyResolutionBody] at ha
  split at ha
  · exact defineFromTemplate_trace_neutral env t res st a ha
  split at ha
  · exact importFromUrl_trace_neutral env t res st a ha
  · fin_cases ha
    rfl

/-- `applyResolution` never lets an exception escape: the `catch` clause
records any thrown error in `failed`. -/
theorem applyResolution_exn (env : Env) (t : String) (res : Resolution)
    (st : LoaderState) : (applyResolution env t res st).exn = none := by
  simp only [applyResolution]
  repeat' split
  all_goals rfl

/-- `maybeLoadForElement` never lets an exception escape. -/
theorem maybeLoadForElement_exn (env : Env) (resolver : ResolverFn) (el : Elem)
    (st : LoaderState) : (maybeLoadForElement env resolver el st).exn = none := by
  simp only [maybeLoadForElement]
  repeat' split
  all_goals first
    | rfl
    | exact applyResolution_exn env _ _ _

/-- `scanList` never lets an exception escape. -/
theorem scanList_exn (env : Env) (resolver : ResolverFn) (els : List Elem)
    (st : LoaderState) : (scanList env resolver els st).exn = none := by
  induction els generalizing st with
  | nil => rfl
  | cons e rest ih =>
    simp only [scanList]
    split
    · next heq => simp [maybeLoadForElement_exn] at heq
    · exact ih _

/-- The trace shape of a resolution attempt that passes the dedup guard:
one `resolveStart`, neutral middle actions, one closing `resolveEnd`. -/
theorem applyResolution_trace_shape (env : Env) (t : String) (res : Resolution)
    (st : LoaderState) (h : t ∉ st.pending) :
    ∃ mids, (∀ a ∈ mids, isNeutral a = true) ∧
      (applyResolution env t res st).trace =
        .resolveStart t :: (mids ++ [.resolveEnd t]) := by
  simp only [applyResolution, if_neg h]
  set st1 : LoaderState :=
    { st with pending := List.insert t st.pending,
              failed := mapDelete t st.failed } with hs
  cases hb : (applyResolutionBody env t res st1).exn with
  | none =>
    refine ⟨(applyResolutionBody env t res st1).trace,
      applyResolutionBody_trace_neutral env t res st1, ?_⟩
    simp [hb]
  | some e =>
    refine ⟨(applyResolutionBody env t res st1).trace ++
      [.logged "error" "Failed to resolve/import/define custom element"], ?_, ?_⟩
    · intro a ha
      rcases List.mem_append.mp ha with ha | ha
      · exact applyResolutionBody_trace_neutral env t res st1 a ha
      · fin_cases ha
        rfl
    · simp [hb]
/-- Every completed `try`-body leaves the tag in `loaded` or `skipped`
unless it threw. -/
theorem applyResolutionBody_classifies (env : Env) (t : String) (res : Resolution)
    (st : LoaderState) :
    t ∈ (applyResolutionBody env t res st).st.loaded ∨
    t ∈ (applyResolutionBody env t res st).st.skipped ∨
    (applyResolutionBody env t res st).exn ≠ none := by
  simp only [applyResolutionBody, defineFromTemplate, importFromUrl]
  repeat' split
  all_goals simp [List.mem_insert_self]

/-- After a resolution attempt that passed the dedup guard, the tag is
classified: it is in `loaded`, in `skipped`, or keyed in `failed`. -/
theorem applyResolution_classifies (env : Env) (t : String) (res : Resolution)
    (st : LoaderState) (h : t ∉ st.pending) :
    t ∈ (applyResolution env t res st).st.loaded ∨
    t ∈ (applyResolution env t res st).st.skipped ∨
    mapHas t (applyResolution env t res st).st.failed = true := by
  simp only [applyResolution, if_neg h]
  set st1 : LoaderState :=
    { st with pending := List.insert t st.pending,
              failed := mapDelete t st.failed } with hs
  cases hb : (applyResolutionBody env t res st1).exn with
  | none =>
    rcases applyResolutionBody_classifies env t res st1 with h1 | h1 | h1
    · left
      simpa [hb] using h1
    · right; left
      simpa [hb] using h1
    · exact absurd hb h1
  | some e =>
    right; right
    simp [hb, mapHas, mapSet]

/-- An element whose (lowercased) tag is already classified in `loaded`,
`failed` or `skipped` — or guarded earlier — is checked without starting a
resolution attempt. -/
theorem maybeLoadForElement_noAttempt (env : Env) (resolver : ResolverFn)
    (el : Elem) (st : LoaderState)
    (h : jsToLower el.tagName ∈ st.loaded ∨
         mapHas (jsToLower el.tagName) st.failed = true ∨
         jsToLower el.tagName ∈ st.skipped) :
    maybeLoadForElement env resolver el st =
      ⟨st, [Action.check (jsToLower el.tagName)], none⟩ := by
  simp only [maybeLoadForElement]
  repeat' split
  all_goals rfl

/-- An element that passes all guards and whose resolver answers with a
resolution is processed by `applyResolution`. -/
theorem maybeLoadForElement_resolves (env : Env) (resolver : ResolverFn)
    (el : Elem) (st : LoaderState) (res0 : Resolution)
    (hpot : isPotentialCustomElementTag (jsToLower el.tagName) = true)
    (hreg : jsToLower el.tagName ∉ st.registry)
    (hcls : ¬(jsToLower el.tagName ∈ st.loaded ∨
        mapHas (jsToLower el.tagName) st.failed = true ∨
        jsToLower el.tagName ∈ st.skipped))
    (hres : resolver (jsToLower el.tagName) el = .ok (some res0)) :
    maybeLoadForElement env resolver el st =
      ⟨(applyResolution env (jsToLower el.tagName) res0 st).st,
        Action.check (jsToLower el.tagName) ::
          (applyResolution env (jsToLower el.tagName) res0 st).trace,
        (applyResolution env (jsToLower el.tagName) res0 st).exn⟩ := by
  simp only [maybeLoadForElement]
  rw [if_neg (by simp [hpot]), if_neg hreg, if_neg hcls, hres]

/-- A neutral action is never the start of a resolution attempt. -/
theorem neutral_not_start (t : String) (a : Action) (h : isNeutral a = true) :
    (a == Action.resolveStart t) = false := by
  cases a <;> simp_all [isNeutral]

/-- An attempt block contains exactly one `resolveStart` for its own tag. -/
theorem startCount_attempt (t : String) (mids : List Action)
    (h : ∀ a ∈ mids, isNeutral a = true) :
    startCount t (Action.resolveStart t :: (mids ++ [Action.resolveEnd t])) = 1 := by
  simp only [startCount, List.filter_cons, List.filter_append]
  have hm : mids.filter (fun a => a == Action.resolveStart t) = [] := by
    rw [List.filter_eq_nil_iff]
    intro a ha
    simp [neutral_not_start t a (h a ha)]
  simp [hm]

/-- A lowercase ASCII letter is in the valid body character set. -/
theorem lower_isTagBodyChar {c : Char} (h1 : 'a' ≤ c) (h2 : c ≤ 'z') :
    OnDemand.isTagBodyChar c = true := by
  unfold OnDemand.isTagBodyChar
  simp [h1, h2]

/-- Claim C6: `isPotentialCustomElementTag` accepts exactly the tag names
matching the valid custom-element naming syntax after case-folding to
lowercase: a hyphen is present, the leading character is a lowercase ASCII
letter, and every character is in the valid character set. -/
theorem claim_C6_tag_syntax (t : String) :
    OnDemand.isPotentialCustomElementTag t = true ↔
      OnDemand.specValidCustomElementSyntax t := by
  unfold OnDemand.isPotentialCustomElementTag OnDemand.specValidCustomElementSyntax
  cases h : (OnDemand.jsToLower t).data with
  | nil => simp [h]
  | cons c rest =>
    simp only [h, OnDemand.matchesTagPattern, List.any_eq_true, List.all_eq_true,
      Bool.and_eq_true, beq_iff_eq, List.mem_cons, decide_eq_true_eq]
    constructor
    · rintro ⟨⟨x, hx, hxdash⟩, ⟨hc1, hc2⟩, hbody⟩
      subst hxdash
      refine ⟨by tauto, ⟨c, rest, rfl, hc1, hc2⟩, ?_⟩
      intro d hd
      rcases hd with hd | hd
      · subst hd
        exact lower_isTagBodyChar hc1 hc2
      · exact hbody d hd
    · rintro ⟨hdash, ⟨c', rest', heq, hc1, hc2⟩, hbody⟩
      obtain ⟨rfl, rfl⟩ : c' = c ∧ rest' = rest := by
        have h1 := heq
        simp only [List.cons.injEq] at h1
        exact ⟨h1.1.symm, h1.2.symm⟩
      exact ⟨⟨'-', by tauto, rfl⟩, ⟨hc1, hc2⟩,
        fun d hd => hbody d (Or.inr hd)⟩

/-- Claim C1: while a tag is in `pending`, no second resolution attempt is
started for it — `applyResolution` returns immediately on a pending tag,
changing nothing and performing no action — and for two elements with the
same unknown tag scanned together, exactly one resolution attempt occurs. -/
theorem claim_C1_pending_dedup :
    (∀ (env : Env) (tag : String) (res : Resolution) (st : LoaderState),
      tag ∈ st.pending → applyResolution env tag res st = ⟨st, [], none⟩)
    ∧
    (∀ (env : Env) (resolver : ResolverFn) (e1 e2 : Elem) (st : LoaderState)
      (res0 : Resolution),
      jsToLower e2.tagName = jsToLower e1.tagName →
      isPotentialCustomElementTag (jsToLower e1.tagName) = true →
      jsToLower e1.tagName ∉ st.registry →
      jsToLower e1.tagName ∉ st.loaded →
      mapHas (jsToLower e1.tagName) st.failed = false →
      jsToLower e1.tagName ∉ st.skipped →
      jsToLower e1.tagName ∉ st.pending →
      resolver (jsToLower e1.tagName) e1 = .ok (some res0) →
      startCount (jsToLower e1.tagName)
        (scan env resolver none true [e1, e2] st).trace = 1) := by
  constructor
  · intro env tag res st h
    simp [applyResolution, if_pos h]
  · intro env resolver e1 e2 st res0 h2 hpot hreg hload hfail hskip hpend hres
    have hcls : ¬(jsToLower e1.tagName ∈ st.loaded ∨
        mapHas (jsToLower e1.tagName) st.failed = true ∨
        jsToLower e1.tagName ∈ st.skipped) := by
      simp [hload, hfail, hskip]
    have hm1 := maybeLoadForElement_resolves env resolver e1 st res0 hpot hreg hcls hres
    have hclassified := applyResolution_classifies env (jsToLower e1.tagName) res0 st hpend
    have hm2 := maybeLoadForElement_noAttempt env resolver e2
      (applyResolution env (jsToLower e1.tagName) res0 st).st (by rw [h2]; tauto)
    obtain ⟨mids, hmid, hshape⟩ :=
      applyResolution_trace_shape env (jsToLower e1.tagName) res0 st hpend
    have hmempty :
        mids.filter (fun a => a == Action.resolveStart (jsToLower e1.tagName)) = [] := by
      rw [List.filter_eq_nil_iff]
      intro a ha
      simp [neutral_not_start _ a (hmid a ha)]
    simp only [scan, scanList, hm1, hm2, maybeLoadForElement_exn, if_true,
      applyResolution_exn]
    simp [h2, hshape, startCount, List.filter_append, List.filter_cons, hmempty]

/-- Witness for claim C1: a concrete pending tag is a no-op, and a concrete
duplicated element yields exactly one resolution attempt. -/
theorem claim_C1_pending_dedup_witness :
    applyResolution noEnv "x-a" resolutionNone
        { LoaderState.init with pending := ["x-a"] } =
      ⟨{ LoaderState.init with pending := ["x-a"] }, [], none⟩ ∧
    startCount "my-card"
      (scan twoRootEnv tmplResolver none true [elCard, elCard] .init).trace = 1 := by
  constructor
  · exact claim_C1_pending_dedup.1 noEnv "x-a" resolutionNone _ (by decide)
  · exact claim_C1_pending_dedup.2 twoRootEnv tmplResolver elCard elCard .init
      resolutionTmpl rfl (by decide) (by decide) (by decide) (by decide)
      (by decide) (by decide) rfl

/-- Deleting a key from the failed map leaves other keys untouched. -/
theorem mapHas_mapDelete_ne {x t : String} (h : x ≠ t)
    (m : List (String × JsError)) : mapHas x (mapDelete t m) = mapHas x m := by
  induction m with
  | nil => rfl
  | cons p rest ih =>
    by_cases hp : p.1 = t
    · rw [mapDelete, List.filter_cons_of_neg (by simp [hp])]
      have hx : (p.1 == x) = false := by
        simp only [beq_eq_false_iff_ne, hp]
        exact fun hc => h hc.symm
      rw [show mapHas x (p :: rest) = ((p.1 == x) || mapHas x rest) from rfl, hx]
      simpa [mapHas, mapDelete] using ih
    · rw [mapDelete, List.filter_cons_of_pos (by simp [hp])]
      simp only [mapHas, List.any_cons]
      have hih := ih
      simp only [mapHas, mapDelete] at hih
      rw [hih]

/-- After deleting a key, the failed map no longer has it. -/
theorem mapHas_mapDelete_self (t : String) (m : List (String × JsError)) :
    mapHas t (mapDelete t m) = false := by
  induction m with
  | nil => rfl
  | cons p rest ih =>
    by_cases hp : p.1 = t
    · rw [mapDelete, List.filter_cons_of_neg (by simp [hp])]
      exact ih
    · rw [mapDelete, List.filter_cons_of_pos (by simp [hp]), mapHas, List.any_cons]
      have hx : (p.1 == t) = false := by
        simp only [beq_eq_false_iff_ne]
        exact hp
      rw [hx, Bool.false_or]
      exact ih

/-- Setting a key in the failed map leaves other keys untouched. -/
theorem mapHas_mapSet_ne {x t : String} (h : x ≠ t) (v : JsError)
    (m : List (String × JsError)) : mapHas x (mapSet t v m) = mapHas x m := by
  have hx : (t == x) = false := by
    simp
    exact fun hc => h hc.symm
  simp only [mapSet, mapHas, List.any_cons, hx, Bool.false_or]
  simpa [mapHas, mapDelete] using mapHas_mapDelete_ne h m

/-- Claim C10 (frame condition of `preload`): when the lowercased tag fails
the custom-element syntax check or is already defined in the registry,
`preload` returns without touching any state collection and without
performing any import or other action. -/
theorem claim_C10_preload_frame (env : Env) (tagName : String) (res : Resolution)
    (st : LoaderState)
    (h : isPotentialCustomElementTag (jsToLower tagName) = false ∨
         jsToLower tagName ∈ st.registry) :
    preload env tagName res st = ⟨st, [], none⟩ := by
  rcases h with h | h
  · simp [preload, h]
  · simp only [preload]
    repeat' split
    all_goals rfl

/-- Witness for claim C10: a hyphen-less tag and an already-defined tag are
both no-ops for `preload`. -/
theorem claim_C10_preload_frame_witness :
    preload noEnv "nohyphen" resolutionTmpl LoaderState.init =
      ⟨LoaderState.init, [], none⟩ ∧
    preload noEnv "My-Card" resolutionTmpl registryState =
      ⟨registryState, [], none⟩ := by
  constructor
  · exact claim_C10_preload_frame noEnv "nohyphen" resolutionTmpl
      LoaderState.init (by decide)
  · exact claim_C10_preload_frame noEnv "My-Card" resolutionTmpl
      registryState (by decide)

/-- `scan` never lets an exception escape. -/
theorem scan_exn (env : Env) (resolver : ResolverFn) (rootEl : Option Elem)
    (deep : Bool) (des : List Elem) (st : LoaderState) :
    (scan env resolver rootEl deep des st).exn = none := by
  cases rootEl with
  | none =>
    simp only [scan]
    split
    · exact scanList_exn env resolver des st
    · rfl
  | some el =>
    simp only [scan]
    split
    · next heq => simp [maybeLoadForElement_exn] at heq
    · split
      · exact scanList_exn env resolver des _
      · exact maybeLoadForElement_exn env resolver el st

/-- `preload` never lets an exception escape. -/
theorem preload_exn (env : Env) (tagName : String) (res : Resolution)
    (st : LoaderState) : (preload env tagName res st).exn = none := by
  simp only [preload]
  repeat' split
  all_goals first
    | rfl
    | exact applyResolution_exn env _ _ _

/-- A resolution attempt whose template id refers to no template skips the
tag, logs a warning, and completes cleanly. -/
theorem applyResolution_missingTemplate (env : Env) (t : String) (res : Resolution)
    (st : LoaderState) (hpend : t ∉ st.pending) (tid : String)
    (h1 : res.importFromTmpl = some tid) (h2 : tid ≠ "")
    (h3 : env.templates tid = none) :
    applyResolution env t res st =
      ⟨{ st with skipped := List.insert t st.skipped,
                 failed := mapDelete t st.failed },
        [Action.resolveStart t,
         Action.logged "warn" "Template resolution requested but template not found",
         Action.resolveEnd t], none⟩ := by
  simp only [applyResolution, if_neg hpend, applyResolutionBody, h1,
    Option.getD_some, truthy, h2, defineFromTemplate, h3]
  simp [h2, List.insert_of_not_mem hpend]

/-- Claim C5: no exception escapes `scan` or `preload` — including a
throwing resolver and a throwing import, which are caught and recorded —
and a template resolution whose template id does not exist ends with the
tag in `skipped` and a warning logged. -/
theorem claim_C5_no_exception_escape :
    (∀ (env : Env) (resolver : ResolverFn) (rootEl : Option Elem) (deep : Bool)
      (des : List Elem) (st : LoaderState),
      (scan env resolver rootEl deep des st).exn = none)
    ∧
    (∀ (env : Env) (tagName : String) (res : Resolution) (st : LoaderState),
      (preload env tagName res st).exn = none)
    ∧
    (∀ (env : Env) (tagName : String) (res : Resolution) (st : LoaderState)
      (tid : String),
      res.importFromTmpl = some tid → tid ≠ "" →
      env.templates tid = none →
      isPotentialCustomElementTag (jsToLower tagName) = true →
      jsToLower tagName ∉ st.registry →
      jsToLower tagName ∉ st.pending →
      jsToLower tagName ∈ (preload env tagName res st).st.skipped ∧
      (∃ msg, Action.logged "warn" msg ∈ (preload env tagName res st).trace)) := by
  refine ⟨scan_exn, preload_exn, ?_⟩
  intro env tagName res st tid h1 h2 h3 hpot hreg hpend
  have hp : preload env tagName res st =
      applyResolution env (jsToLower tagName) res st := by
    simp [preload, hpot, if_neg hreg]
  rw [hp, applyResolution_missingTemplate env (jsToLower tagName) res st hpend tid h1 h2 h3]
  refine ⟨List.mem_insert_self _ _, "Template resolution requested but template not found", ?_⟩
  simp

/-- Witness for claim C5: concrete runs of `scan` and `preload`, and a
concrete preload of a resolution referencing a nonexistent template id. -/
theorem claim_C5_no_exception_escape_witness :
    (scan noEnv skipResolver none true [elCard] LoaderState.init).exn = none ∧
    (preload noEnv "x-a" resolutionNone LoaderState.init).exn = none ∧
    ("x-b" ∈ (preload noEnv "x-b" resolutionTmplMissing LoaderState.init).st.skipped ∧
      ∃ msg, Action.logged "warn" msg ∈
        (preload noEnv "x-b" resolutionTmplMissing LoaderState.init).trace) := by
  refine ⟨claim_C5_no_exception_escape.1 noEnv skipResolver none true [elCard] _,
    claim_C5_no_exception_escape.2.1 noEnv "x-a" resolutionNone _, ?_⟩
  have h := claim_C5_no_exception_escape.2.2 noEnv "x-b" resolutionTmplMissing
    LoaderState.init "no-such-template" rfl (by decide) rfl (by decide)
    (by decide) (by decide)
  exact h

/-- Counterexample to claim C3: an entry of the `failed` map is removed by a
later `preload` of the same tag — `applyResolution` deletes the tag's
failed entry when a new resolution attempt begins. -/
theorem claim_C3_counterexample :
    mapHas "x-a" failedState.failed = true ∧
    mapHas "x-a" (preload noEnv "x-a" resolutionNone failedState).st.failed = false ∧
    "x-a" ∈ (preload noEnv "x-a" resolutionNone failedState).st.skipped := by
  decide

/-- `defineFromTemplate` does not touch `pending` or `failed`, and only ever
adds to `loaded` and `skipped`. -/
theorem defineFromTemplate_state (env : Env) (t : String) (res : Resolution)
    (st : LoaderState) :
    (defineFromTemplate env t res st).st.pending = st.pending ∧
    (defineFromTemplate env t res st).st.failed = st.failed ∧
    (∀ x ∈ st.loaded, x ∈ (defineFromTemplate env t res st).st.loaded) ∧
    (∀ x ∈ st.skipped, x ∈ (defineFromTemplate env t res st).st.skipped) := by
  simp only [defineFromTemplate]
  repeat' split
  all_goals exact ⟨rfl, rfl, fun x hx => by simp [List.mem_insert_iff, hx],
    fun x hx => by simp [List.mem_insert_iff, hx]⟩

/-- `importFromUrl` does not touch `pending` or `failed`, and only ever adds
to `loaded` and `skipped`. -/
theorem importFromUrl_state (env : Env) (t : String) (res : Resolution)
    (st : LoaderState) :
    (importFromUrl env t res st).st.pending = st.pending ∧
    (importFromUrl env t res st).st.failed = st.failed ∧
    (∀ x ∈ st.loaded, x ∈ (importFromUrl env t res st).st.loaded) ∧
    (∀ x ∈ st.skipped, x ∈ (importFromUrl env t res st).st.skipped) := by
  simp only [importFromUrl]
  repeat' split
  all_goals exact ⟨rfl, rfl, fun x hx => by simp [List.mem_insert_iff, hx],
    fun x hx => by simp [List.mem_insert_iff, hx]⟩

/-- The `try` body of `applyResolution` does not touch `pending` or
`failed`, and only ever adds to `loaded` and `skipped`. -/
theorem applyResolutionBody_state (env : Env) (t : String) (res : Resolution)
    (st : LoaderState) :
    (applyResolutionBody env t res st).st.pending = st.pending ∧
    (applyResolutionBody env t res st).st.failed = st.failed ∧
    (∀ x ∈ st.loaded, x ∈ (applyResolutionBody env t res st).st.loaded) ∧
    (∀ x ∈ st.skipped, x ∈ (applyResolutionBody env t res st).st.skipped) := by
  simp only [applyResolutionBody]
  split
  · exact defineFromTemplate_state env t res st
  split
  · exact importFromUrl_state env t res st
  · exact ⟨rfl, rfl, fun x hx => hx,
      fun x hx => by simp [List.mem_insert_iff, hx]⟩

/-- `applyResolution` restores `pending`, only grows `loaded` and `skipped`,
and removes a `failed` entry only when it starts a resolution attempt for
that same tag. -/
theorem applyResolution_state (env : Env) (t : String) (res : Resolution)
    (st : LoaderState) :
    (applyResolution env t res st).st.pending = st.pending ∧
    (∀ x ∈ st.loaded, x ∈ (applyResolution env t res st).st.loaded) ∧
    (∀ x ∈ st.skipped, x ∈ (applyResolution env t res st).st.skipped) ∧
    (∀ x, mapHas x st.failed = true →
      mapHas x (applyResolution env t res st).st.failed = true ∨
      Action.resolveStart x ∈ (applyResolution env t res st).trace) := by
  by_cases hpend : t ∈ st.pending
  · have happ : applyResolution env t res st = ⟨st, [], none⟩ := by
      simp [applyResolution, if_pos hpend]
    rw [happ]
    exact ⟨rfl, fun x hx => hx, fun x hx => hx, fun x hx => Or.inl hx⟩
  · obtain ⟨mids, hmid, hshape⟩ := applyResolution_trace_shape env t res st hpend
    have hstart : Action.resolveStart t ∈ (applyResolution env t res st).trace := by
      rw [hshape]
      exact List.mem_cons_self _ _
    simp only [applyResolution, if_neg hpend] at hstart ⊢
    obtain ⟨hbp, hbf, hbl, hbs⟩ := applyResolutionBody_state env t res
      { st with pending := List.insert t st.pending, failed := mapDelete t st.failed }
    cases hb : (applyResolutionBody env t res
        { st with pending := List.insert t st.pending,
                  failed := mapDelete t st.failed }).exn with
    | none =>
      simp only [hb] at hstart ⊢
      refine ⟨?_, fun x hx => hbl x hx, fun x hx => hbs x hx, ?_⟩
      · rw [hbp]
        simp [List.insert_of_not_mem hpend]
      · intro x hx
        by_cases hxt : x = t
        · subst hxt
          exact Or.inr hstart
        · left
          rw [hbf]
          rw [mapHas_mapDelete_ne hxt]
          exact hx
    | some e =>
      simp only [hb] at hstart ⊢
      refine ⟨?_, fun x hx => hbl x hx, fun x hx => hbs x hx, ?_⟩
      · rw [hbp]
        simp [List.insert_of_not_mem hpend]
      · intro x hx
        by_cases hxt : x = t
        · subst hxt
          exact Or.inr hstart
        · left
          rw [mapHas_mapSet_ne hxt, hbf, mapHas_mapDelete_ne hxt]
          exact hx

/-- `maybeLoadForElement` restores `pending`, only grows `loaded` and
`skipped`, and removes a `failed` entry only when it starts a resolution
attempt for that same tag. -/
theorem maybeLoadForElement_state (env : Env) (resolver : ResolverFn)
    (el : Elem) (st : LoaderState) :
    (maybeLoadForElement env resolver el st).st.pending = st.pending ∧
    (∀ x ∈ st.loaded, x ∈ (maybeLoadForElement env resolver el st).st.loaded) ∧
    (∀ x ∈ st.skipped, x ∈ (maybeLoadForElement env resolver el st).st.skipped) ∧
    (∀ x, mapHas x st.failed = true →
      mapHas x (maybeLoadForElement env resolver el st).st.failed = true ∨
      Action.resolveStart x ∈ (maybeLoadForElement env resolver el st).trace) := by
  simp only [maybeLoadForElement]
  split
  · exact ⟨rfl, fun x hx => hx, fun x hx => hx, fun x hx => Or.inl hx⟩
  split
  · exact ⟨rfl, fun x hx => hx, fun x hx => hx, fun x hx => Or.inl hx⟩
  split
  · exact ⟨rfl, fun x hx => hx, fun x hx => hx, fun x hx => Or.inl hx⟩
  · next hguard =>
    split
    · -- the resolver threw: its error replaces no existing entry, since a
      -- failed tag never reaches the resolver
      refine ⟨rfl, fun x hx => hx, fun x hx => hx, ?_⟩
      intro x hx
      left
      have hxt : x ≠ jsToLower el.tagName := by
        rintro rfl
        exact hguard (Or.inr (Or.inl hx))
      rw [mapHas_mapSet_ne hxt]
      exact hx
    · exact ⟨rfl, fun x hx => hx,
        fun x hx => by simp [List.mem_insert_iff, hx], fun x hx => Or.inl hx⟩
    · obtain ⟨hp, hl, hs, hf⟩ := applyResolution_state env (jsToLower el.tagName) _ st
      refine ⟨hp, hl, hs, ?_⟩
      intro x hx
      rcases hf x hx with h | h
      · exact Or.inl h
      · exact Or.inr (List.mem_cons_of_mem _ h)

/-- `scanList` restores `pending`, only grows `loaded` and `skipped`, and
removes a `failed` entry only when some attempt for that tag starts. -/
theorem scanList_state (env : Env) (resolver : ResolverFn) (els : List Elem)
    (st : LoaderState) :
    (scanList env resolver els st).st.pending = st.pending ∧
    (∀ x ∈ st.loaded, x ∈ (scanList env resolver els st).st.loaded) ∧
    (∀ x ∈ st.skipped, x ∈ (scanList env resolver els st).st.skipped) ∧
    (∀ x, mapHas x st.failed = true →
      mapHas x (scanList env resolver els st).st.failed = true ∨
      Action.resolveStart x ∈ (scanList env resolver els st).trace) := by
  induction els generalizing st with
  | nil => exact ⟨rfl, fun x hx => hx, fun x hx => hx, fun x hx => Or.inl hx⟩
  | cons e rest ih =>
    simp only [scanList, maybeLoadForElement_exn]
    obtain ⟨h1p, h1l, h1s, h1f⟩ := maybeLoadForElement_state env resolver e st
    obtain ⟨h2p, h2l, h2s, h2f⟩ := ih ((maybeLoadForElement env resolver e st).st)
    refine ⟨by rw [h2p, h1p], fun x hx => h2l x (h1l x hx),
      fun x hx => h2s x (h1s x hx), ?_⟩
    intro x hx
    rcases h1f x hx with h | h
    · rcases h2f x h with h2 | h2
      · exact Or.inl h2
      · exact Or.inr (List.mem_append.mpr (Or.inr h2))
    · exact Or.inr (List.mem_append.mpr (Or.inl h))

/-- `runOp` (any public loader operation) restores `pending`, only grows
`loaded` and `skipped`, and removes a `failed` entry only when a resolution
attempt for that tag starts. -/
theorem runOp_state (env : Env) (resolver : ResolverFn) (op : LoaderOp)
    (st : LoaderState) :
    (runOp env resolver op st).st.pending = st.pending ∧
    (∀ x ∈ st.loaded, x ∈ (runOp env resolver op st).st.loaded) ∧
    (∀ x ∈ st.skipped, x ∈ (runOp env resolver op st).st.skipped) ∧
    (∀ x, mapHas x st.failed = true →
      mapHas x (runOp env resolver op st).st.failed = true ∨
      Action.resolveStart x ∈ (runOp env resolver op st).trace) := by
  cases op with
  | scanOp rootEl deep des =>
    cases rootEl with
    | none =>
      simp only [runOp, scan]
      split
      · exact scanList_state env resolver des st
      · exact ⟨rfl, fun x hx => hx, fun x hx => hx, fun x hx => Or.inl hx⟩
    | some el =>
      simp only [runOp, scan, maybeLoadForElement_exn]
      obtain ⟨h1p, h1l, h1s, h1f⟩ := maybeLoadForElement_state env resolver el st
      split
      · obtain ⟨h2p, h2l, h2s, h2f⟩ :=
          scanList_state env resolver des ((maybeLoadForElement env resolver el st).st)
        refine ⟨by rw [h2p, h1p], fun x hx => h2l x (h1l x hx),
          fun x hx => h2s x (h1s x hx), ?_⟩
        intro x hx
        rcases h1f x hx with h | h
        · rcases h2f x h with h2 | h2
          · exact Or.inl h2
          · exact Or.inr (List.mem_append.mpr (Or.inr h2))
        · exact Or.inr (List.mem_append.mpr (Or.inl h))
      · exact ⟨h1p, h1l, h1s, h1f⟩
  | preloadOp tagName res =>
    simp only [runOp, preload]
    split
    · exact ⟨rfl, fun x hx => hx, fun x hx => hx, fun x hx => Or.inl hx⟩
    split
    · exact ⟨rfl, fun x hx => hx, fun x hx => hx, fun x hx => Or.inl hx⟩
    · exact applyResolution_state env (jsToLower tagName) res st

/-- Claim C3 (amended): entries of `loaded` and `skipped` are never removed
by any loader operation, and one operation leaves `pending` exactly as it
found it — every attempt it starts is cleared on that attempt's completion.
A `failed` entry, however, is removed exactly when a new resolution attempt
for that same tag begins (`applyResolution` deletes it before retrying);
otherwise it persists. -/
theorem claim_C3_state_lifecycle (env : Env) (resolver : ResolverFn)
    (op : LoaderOp) (st : LoaderState) :
    (runOp env resolver op st).st.pending = st.pending ∧
    (∀ x ∈ st.loaded, x ∈ (runOp env resolver op st).st.loaded) ∧
    (∀ x ∈ st.skipped, x ∈ (runOp env resolver op st).st.skipped) ∧
    (∀ x, mapHas x st.failed = true →
      mapHas x (runOp env resolver op st).st.failed = true ∨
      Action.resolveStart x ∈ (runOp env resolver op st).trace) :=
  runOp_state env resolver op st

/-- Witness for the amended claim C3: at the concrete failed state, the
failed entry either persists or its tag's attempt started (here the
latter). -/
theorem claim_C3_state_lifecycle_witness :
    (runOp noEnv skipResolver (.preloadOp "x-a" resolutionNone) failedState).st.pending =
      failedState.pending ∧
    (mapHas "x-a" (runOp noEnv skipResolver (.preloadOp "x-a" resolutionNone)
        failedState).st.failed = true ∨
      Action.resolveStart "x-a" ∈
        (runOp noEnv skipResolver (.preloadOp "x-a" resolutionNone) failedState).trace) :=
  ⟨(claim_C3_state_lifecycle noEnv skipResolver _ failedState).1,
    (claim_C3_state_lifecycle noEnv skipResolver _ failedState).2.2.2 "x-a" (by decide)⟩

/-- Packing a valid codepoint and unpacking it is the identity. -/
theorem toNat_ofNat_valid {m : Nat} (h : m.isValidChar) :
    (Char.ofNat m).toNat = m := by
  rw [Char.ofNat, dif_pos h]
  rfl

/-- ASCII lowercasing of a character is idempotent. -/
theorem charToLower_idem (c : Char) : c.toLower.toLower = c.toLower := by
  by_cases h : c.toNat ≥ 65 ∧ c.toNat ≤ 90
  · have h1 : c.toLower = Char.ofNat (c.toNat + 32) := by
      simp only [Char.toLower]
      rw [if_pos h]
    have hv : (c.toNat + 32).isValidChar := Or.inl (by omega)
    have ht : (Char.ofNat (c.toNat + 32)).toNat = c.toNat + 32 :=
      toNat_ofNat_valid hv
    rw [h1]
    simp only [Char.toLower, ht]
    rw [if_neg (by omega)]
  · have h1 : c.toLower = c := by
      simp only [Char.toLower]
      rw [if_neg h]
    rw [h1, h1]

/-- `jsToLower` is idempotent. -/
theorem jsToLower_idem (s : String) : jsToLower (jsToLower s) = jsToLower s := by
  simp only [jsToLower]
  congr 1
  rw [List.map_map]
  exact List.map_congr_left (fun a _ => charToLower_idem a)

/-- Counterexample to claim C7: this template's content does NOT have
exactly one element root (it has two), yet `defineFromTemplate` still uses
it — the first element child becomes the component root, a class is
registered under its tag name and the tag is marked loaded. -/
theorem claim_C7_counterexample :
    countElementRoots twoRootTemplate ≠ 1 ∧
    (defineFromTemplate twoRootEnv "my-card" resolutionTmpl
      LoaderState.init).st.registry = ["my-card"] ∧
    "my-card" ∈ (defineFromTemplate twoRootEnv "my-card" resolutionTmpl
      LoaderState.init).st.loaded := by
  decide

/-- Claim C7 (amended): the loader requires the looked-up template's content
to have AT LEAST one element root — with none the tag is skipped and
nothing is defined — and it uses the FIRST element child as the component
root even when further element roots exist; when `defineAs` is absent the
define-name defaults to that root's (lowercased) tag name. -/
theorem claim_C7_template_root (env : Env) (t : String) (res : Resolution)
    (st : LoaderState) (tmpl : TemplateEl)
    (htm : env.templates (res.importFromTmpl.getD "") = some tmpl) :
    (firstElementChild tmpl.content = none →
      t ∈ (defineFromTemplate env t res st).st.skipped ∧
      (defineFromTemplate env t res st).st.registry = st.registry) ∧
    (∀ rootTag rootHtml,
      firstElementChild tmpl.content = some (rootTag, rootHtml) →
      res.defineAs = none →
      isPotentialCustomElementTag (jsToLower rootTag) = true →
      jsToLower rootTag ∉ st.registry →
      (defineFromTemplate env t res st).st.registry =
        (jsToLower rootTag) :: st.registry ∧
      t ∈ (defineFromTemplate env t res st).st.loaded) := by
  constructor
  · intro hroot
    have hd : defineFromTemplate env t res st =
        ⟨{ st with skipped := List.insert t st.skipped },
          [Action.logged "warn" "Template is empty or has no element root"],
          none⟩ := by
      simp only [defineFromTemplate, htm, hroot]
    rw [hd]
    exact ⟨List.mem_insert_self _ _, rfl⟩
  · intro rootTag rootHtml hroot hda hpot hreg
    have hd : defineFromTemplate env t res st =
        ⟨{ st with registry := ((jsToLower rootTag) :: st.registry),
                   loaded := List.insert t st.loaded }, [], none⟩ := by
      simp only [defineFromTemplate, htm, hroot, hda, Option.getD_none,
        jsToLower_idem]
      rw [if_neg (by simp [hpot]), if_neg hreg]
    rw [hd]
    exact ⟨rfl, List.mem_insert_self _ _⟩

/-- Witness for the amended claim C7: the two-root template's first element
child `MY-CARD` becomes the define-name. -/
theorem claim_C7_template_root_witness :
    (defineFromTemplate twoRootEnv "my-card" resolutionTmpl
      LoaderState.init).st.registry = "my-card" :: LoaderState.init.registry ∧
    "my-card" ∈ (defineFromTemplate twoRootEnv "my-card" resolutionTmpl
      LoaderState.init).st.loaded := by
  have h := (claim_C7_template_root twoRootEnv "my-card" resolutionTmpl
    LoaderState.init twoRootTemplate rfl).2 "MY-CARD" "<b>hi</b>" rfl rfl
    (by decide) (by decide)
  exact ⟨by rw [h.1]; rfl, h.2⟩

/-- The `try` body on an invalid resolution: the tag ends in `loaded` or
`skipped`, the `failed` map is untouched, nothing is thrown, and a warning
is logged. -/
theorem applyResolutionBody_invalid (env : Env) (tag : String)
    (res : Resolution) (st : LoaderState)
    (hinv : InvalidResolutionCase env tag res st.registry) :
    (tag ∈ (applyResolutionBody env tag res st).st.loaded ∨
     tag ∈ (applyResolutionBody env tag res st).st.skipped) ∧
    (applyResolutionBody env tag res st).st.failed = st.failed ∧
    (applyResolutionBody env tag res st).exn = none ∧
    (∃ msg, Action.logged "warn" msg ∈ (applyResolutionBody env tag res st).trace) := by
  rcases hinv with ⟨h1, h2⟩ |
    ⟨h1, hmiss | ⟨tmpl, htm, hroot⟩⟩ |
    (⟨h1, tmpl, root, htm, hroot, hbad⟩ | ⟨h1, hu, hbad⟩) |
    ⟨h1, hu, hpotT, hreg1, mod, regs, en, himp, hnr, hen, hctor⟩
  · have hd : applyResolutionBody env tag res st =
        ⟨{ st with skipped := List.insert tag st.skipped },
          [Action.logged "warn"
            "Resolver returned a resolution with neither importFromUrl nor importFromTmpl"],
          none⟩ := by
      simp only [applyResolutionBody, h1, h2]
      rfl
    rw [hd]
    exact ⟨Or.inr (List.mem_insert_self _ _), rfl, rfl,
      ⟨_, List.mem_singleton_self _⟩⟩
  · have hd : applyResolutionBody env tag res st =
        ⟨{ st with skipped := List.insert tag st.skipped },
          [Action.logged "warn" "Template resolution requested but template not found"],
          none⟩ := by
      simp only [applyResolutionBody, h1, if_true, defineFromTemplate, hmiss]
    rw [hd]
    exact ⟨Or.inr (List.mem_insert_self _ _), rfl, rfl,
      ⟨_, List.mem_singleton_self _⟩⟩
  · have hd : applyResolutionBody env tag res st =
        ⟨{ st with skipped := List.insert tag st.skipped },
          [Action.logged "warn" "Template is empty or has no element root"],
          none⟩ := by
      simp only [applyResolutionBody, h1, if_true, defineFromTemplate, htm, hroot]
    rw [hd]
    exact ⟨Or.inr (List.mem_insert_self _ _), rfl, rfl,
      ⟨_, List.mem_singleton_self _⟩⟩
  · have hd : applyResolutionBody env tag res st =
        ⟨{ st with skipped := List.insert tag st.skipped },
          [Action.logged "warn"
            "Refusing to define from template: invalid custom element tag"],
          none⟩ := by
      simp only [applyResolutionBody, h1, if_true, defineFromTemplate, htm, hroot, hbad]
    rw [hd]
    exact ⟨Or.inr (List.mem_insert_self _ _), rfl, rfl,
      ⟨_, List.mem_singleton_self _⟩⟩
  · have hd : applyResolutionBody env tag res st =
        ⟨{ st with skipped := List.insert tag st.skipped },
          [Action.logged "warn" "Refusing to load: not a valid custom element tag name"],
          none⟩ := by
      simp only [applyResolutionBody, h1, hu, if_true, importFromUrl, hbad]
      rfl
    rw [hd]
    exact ⟨Or.inr (List.mem_insert_self _ _), rfl, rfl,
      ⟨_, List.mem_singleton_self _⟩⟩
  · have hnotin :
        jsToLower (res.defineAs.getD tag) ∉ regs ++ st.registry := by
      intro hmem
      rcases List.mem_append.mp hmem with hmem | hmem
      · exact hnr hmem
      · exact hreg1 hmem
    have hd : applyResolutionBody env tag res st =
        ⟨{ st with registry := (regs ++ st.registry),
                   loaded := List.insert tag st.loaded },
          [Action.logged "debug" "Importing custom element module",
           Action.importCall (res.importFromUrl.getD ""),
           Action.logged "warn"
             "Export is not a valid HTMLElement subclass constructor; cannot define"],
          none⟩ := by
      simp only [applyResolutionBody, h1, hu, if_true, importFromUrl, hpotT,
        himp, hen, hctor]
      rw [if_neg (by simp), if_neg hreg1, if_neg hnotin]
      rfl
    rw [hd]
    exact ⟨Or.inl (List.mem_insert_self _ _), rfl, rfl,
      ⟨_, List.mem_cons_of_mem _ (List.mem_cons_of_mem _ (List.mem_singleton_self _))⟩⟩

/-- Claim C2: an invalid resolution — neither import kind, a define-name
failing the syntax check, a missing or element-root-less template, or a
non-constructor module export — classifies the tag as `skipped` or `loaded`
(never `failed`) and logs a warning. -/
theorem claim_C2_invalid_soft_failure (env : Env) (tag : String)
    (res : Resolution) (st : LoaderState)
    (hpend : tag ∉ st.pending)
    (hinv : InvalidResolutionCase env tag res st.registry) :
    (tag ∈ (applyResolution env tag res st).st.loaded ∨
     tag ∈ (applyResolution env tag res st).st.skipped) ∧
    mapHas tag (applyResolution env tag res st).st.failed = false ∧
    (∃ msg, Action.logged "warn" msg ∈ (applyResolution env tag res st).trace) := by
  obtain ⟨hcls, hfail, hexn, msg, hmsg⟩ := applyResolutionBody_invalid env tag res
    { st with pending := List.insert tag st.pending,
              failed := mapDelete tag st.failed } hinv
  simp only [applyResolution, if_neg hpend, hexn]
  refine ⟨hcls, ?_, ⟨msg, ?_⟩⟩
  · rw [hfail]
    exact mapHas_mapDelete_self tag st.failed
  · exact List.mem_cons_of_mem _ (List.mem_append.mpr (Or.inl hmsg))

/-- Witness for claim C2: the neither-import-kind case at a concrete input
ends skipped, unfailed, and warned. -/
theorem claim_C2_invalid_soft_failure_witness :
    ("x-a" ∈ (applyResolution noEnv "x-a" resolutionNone LoaderState.init).st.loaded ∨
     "x-a" ∈ (applyResolution noEnv "x-a" resolutionNone LoaderState.init).st.skipped) ∧
    mapHas "x-a" (applyResolution noEnv "x-a" resolutionNone LoaderState.init).st.failed
      = false ∧
    (∃ msg, Action.logged "warn" msg ∈
      (applyResolution noEnv "x-a" resolutionNone LoaderState.init).trace) :=
  claim_C2_invalid_soft_failure noEnv "x-a" resolutionNone LoaderState.init
    (by decide) (Or.inl ⟨by decide, by decide⟩)

/-- Every element check's trace is a well-formed check block. -/
theorem maybeLoadForElement_block (env : Env) (resolver : ResolverFn)
    (el : Elem) (st : LoaderState) :
    CheckBlock (jsToLower el.tagName) (maybeLoadForElement env resolver el st).trace := by
  simp only [maybeLoadForElement]
  split
  · exact .noAttempt _ [] (by simp)
  split
  · exact .noAttempt _ [] (by simp)
  split
  · exact .noAttempt _ [] (by simp)
  · split
    · exact .noAttempt _ [.logged "error" "Resolver threw; marking as failed"]
        (by intro a ha; fin_cases ha; rfl)
    · exact .noAttempt _ [] (by simp)
    · next res0 heq =>
      by_cases hpend : jsToLower el.tagName ∈ st.pending
      · have happ : applyResolution env (jsToLower el.tagName) res0 st =
            ⟨st, [], none⟩ := by
          simp [applyResolution, if_pos hpend]
        rw [happ]
        exact .noAttempt _ [] (by simp)
      · obtain ⟨mids, hmid, hshape⟩ :=
          applyResolution_trace_shape env (jsToLower el.tagName) res0 st hpend
        rw [hshape]
        exact .attempt _ mids hmid

/-- A check block contributes exactly its own tag to the check sequence. -/
theorem checkBlock_checks {t : String} {tr : List Action} (h : CheckBlock t tr) :
    tr.filterMap checkTag = [t] := by
  have hneutral : ∀ (l : List Action), (∀ a ∈ l, isNeutral a = true) →
      l.filterMap checkTag = [] := by
    intro l hl
    rw [List.filterMap_eq_nil_iff]
    intro a ha
    have := hl a ha
    cases a <;> simp_all [isNeutral, checkTag]
  cases h with
  | noAttempt pre hpre =>
    simp [List.filterMap_cons, checkTag, hneutral pre hpre]
  | attempt mids hmid =>
    simp [List.filterMap_cons, List.filterMap_append, checkTag,
      hneutral mids hmid]

/-- Joining blocks aligned with the element list yields the elements' tags
in document order. -/
theorem forall2_blocks_checks {els : List Elem} {blocks : List (List Action)}
    (h : List.Forall₂ (fun (e : Elem) tr => CheckBlock (jsToLower e.tagName) tr)
      els blocks) :
    blocks.flatten.filterMap checkTag = els.map (fun e => jsToLower e.tagName) := by
  induction h with
  | nil => rfl
  | cons hb hrest ih =>
    simp [List.filterMap_append, checkBlock_checks hb, ih]

/-- `scanList`'s trace is the concatenation of one complete check block per
element, in list order. -/
theorem scanList_blocks (env : Env) (resolver : ResolverFn) (els : List Elem)
    (st : LoaderState) :
    ∃ blocks, (scanList env resolver els st).trace = blocks.flatten ∧
      List.Forall₂ (fun (e : Elem) tr => CheckBlock (jsToLower e.tagName) tr)
        els blocks := by
  induction els generalizing st with
  | nil => exact ⟨[], rfl, .nil⟩
  | cons e rest ih =>
    simp only [scanList, maybeLoadForElement_exn]
    obtain ⟨blocks, hb1, hb2⟩ := ih ((maybeLoadForElement env resolver e st).st)
    refine ⟨(maybeLoadForElement env resolver e st).trace :: blocks, ?_,
      .cons (maybeLoadForElement_block env resolver e st) hb2⟩
    rw [hb1]
    rfl

/-- Claim C8: within a single (deep) `scan` call the encountered tags are
processed in document order and each element's check — including any
resolution attempt it starts — runs to completion before the next element's
check begins: the trace is a concatenation of complete per-element check
blocks, and each block contains at most one attempt, opened and closed
inside the block, so no two attempts started by the same scan overlap. -/
theorem claim_C8_scan_sequential (env : Env) (resolver : ResolverFn)
    (rootEl : Option Elem) (des : List Elem) (st : LoaderState) :
    ∃ blocks,
      (scan env resolver rootEl true des st).trace = blocks.flatten ∧
      List.Forall₂ (fun (e : Elem) tr => CheckBlock (jsToLower e.tagName) tr)
        (rootEl.toList ++ des) blocks ∧
      (scan env resolver rootEl true des st).trace.filterMap checkTag =
        (rootEl.toList ++ des).map (fun e => jsToLower e.tagName) := by
  cases rootEl with
  | none =>
    obtain ⟨blocks, hb1, hb2⟩ := scanList_blocks env resolver des st
    refine ⟨blocks, ?_, ?_, ?_⟩
    · simpa [scan] using hb1
    · simpa using hb2
    · simp only [scan, if_true, Option.toList, List.nil_append]
      rw [hb1]
      exact forall2_blocks_checks hb2
  | some el =>
    obtain ⟨blocks, hb1, hb2⟩ :=
      scanList_blocks env resolver des ((maybeLoadForElement env resolver el st).st)
    have hblock := maybeLoadForElement_block env resolver el st
    have hforall : List.Forall₂
        (fun (e : Elem) tr => CheckBlock (jsToLower e.tagName) tr)
        (el :: des) ((maybeLoadForElement env resolver el st).trace :: blocks) :=
      .cons hblock hb2
    have htr : (scan env resolver (some el) true des st).trace =
        ((maybeLoadForElement env resolver el st).trace :: blocks).flatten := by
      simp only [scan, maybeLoadForElement_exn, if_true]
      rw [hb1]
      rfl
    exact ⟨(maybeLoadForElement env resolver el st).trace :: blocks, htr,
      by simpa using hforall,
      by rw [htr]; simpa using forall2_blocks_checks hforall⟩

/-- Claim C4: the composed resolver evaluates its resolvers in list order,
awaiting each, and returns the first result that is not `false`; the
resolvers after the winner are not consulted (the composite's result does
not depend on them at all); if every resolver returns `false`, the
composite returns `false`. -/
theorem claim_C4_compose_first_wins :
    (∀ (rs : List ResolverFn) (t : String) (e : Elem),
      (∀ r ∈ rs, r t e = .ok none) →
      composeOnDemandCustomElementResolvers rs t e = .ok none)
    ∧
    (∀ (rs1 : List ResolverFn) (r : ResolverFn) (rs2 : List ResolverFn)
      (t : String) (e : Elem) (out : Resolution),
      (∀ r1 ∈ rs1, r1 t e = .ok none) →
      r t e = .ok (some out) →
      composeOnDemandCustomElementResolvers (rs1 ++ r :: rs2) t e =
        .ok (some out)) := by
  constructor
  · intro rs t e h
    induction rs with
    | nil => rfl
    | cons q rest ih =>
      simp only [composeOnDemandCustomElementResolvers, composeRun]
      rw [h q (List.mem_cons_self q rest)]
      exact ih (fun r1 hr1 => h r1 (List.mem_cons_of_mem _ hr1))
  · intro rs1 r rs2 t e out h1 h2
    induction rs1 with
    | nil =>
      simp only [composeOnDemandCustomElementResolvers, List.nil_append, composeRun, h2]
    | cons q rest ih =>
      simp only [composeOnDemandCustomElementResolvers, List.cons_append, composeRun]
      rw [h1 q (List.mem_cons_self q rest)]
      exact ih (fun r1 hr1 => h1 r1 (List.mem_cons_of_mem _ hr1))

/-- Witness for claim C4: with [skip, B] the composite returns B's
resolution; with [A, B] it returns A's regardless of B; with all-skip the
composite skips. -/
theorem claim_C4_compose_first_wins_witness :
    composeOnDemandCustomElementResolvers [skipResolver, tmplResolver]
      "my-card" elCard = .ok (some resolutionTmpl) ∧
    composeOnDemandCustomElementResolvers [tmplResolver, tmplResolverB]
      "my-card" elCard = .ok (some resolutionTmpl) ∧
    composeOnDemandCustomElementResolvers [skipResolver, skipResolver]
      "my-card" elCard = .ok none := by
  refine ⟨?_, ?_, ?_⟩
  · exact claim_C4_compose_first_wins.2 [skipResolver] tmplResolver []
      "my-card" elCard resolutionTmpl
      (by intro r1 hr1; fin_cases hr1; rfl) rfl
  · exact claim_C4_compose_first_wins.2 [] tmplResolver [tmplResolverB]
      "my-card" elCard resolutionTmpl
      (by intro r1 hr1; cases hr1) rfl
  · exact claim_C4_compose_first_wins.1 [skipResolver, skipResolver]
      "my-card" elCard (by intro r1 hr1; fin_cases hr1 <;> rfl)

/-- Claim C9: a tag factory consumes an optional leading plain object as the
attributes object and recursively flattens the remaining arguments into
children — DOM nodes appended directly, strings and numbers becoming text
nodes, null/undefined and booleans ignored, nested arrays flattened — and
in particular div({class:"x"}, "hi") yields an element whose `class`
attribute is "x" and whose only child is the text node "hi". -/
theorem claim_C9_html_builder :
    (∀ (hasProp : String → String → Bool) (t : String)
      (a : List (String × FluentHtml.AttrV)) (rest : List FluentHtml.ChildLike),
      FluentHtml.tag hasProp t (.obj a :: rest) =
        .element t (FluentHtml.svgTags.contains t)
          (FluentHtml.applyAttrs (hasProp t) a) (FluentHtml.flattenList rest))
    ∧ (∀ n, FluentHtml.flattenChild (.node n) = [n])
    ∧ (∀ s, FluentHtml.flattenChild (.str s) = [.textNode s])
    ∧ (∀ n : Int, FluentHtml.flattenChild (.num n) = [.textNode (toString n)])
    ∧ FluentHtml.flattenChild .nullish = []
    ∧ (∀ b, FluentHtml.flattenChild (.bool b) = [])
    ∧ (∀ cs, FluentHtml.flattenChild (.arr cs) = FluentHtml.flattenList cs)
    ∧ (∀ c rest, FluentHtml.flattenList (c :: rest) =
        FluentHtml.flattenChild c ++ FluentHtml.flattenList rest)
    ∧ FluentHtml.tag FluentHtml.domHasProp "div"
        [.obj [("class", .vStr "x")], .str "hi"] =
      .element "div" false ⟨[("class", "x")], [], [], [], []⟩
        [.textNode "hi"] := by
  refine ⟨fun _ _ _ _ => rfl, fun _ => rfl, fun _ => rfl, fun _ => rfl, rfl,
    fun b => rfl, fun _ => rfl, fun _ _ => rfl, ?_⟩
  rfl
